import Mathlib

/-!
Shallow embedding of the cart service of the `my-ecommerce-app` repository.

The relational store (Prisma over PostgreSQL) is modelled as an explicit
`Store` value threaded through the handlers. Each HTTP handler of
`src/pages/api/cart/index.ts` and `src/pages/api/orders/index.ts` becomes a
Lean function taking the store and returning its HTTP-level outcome together
with the resulting store. JavaScript numbers are modelled as `ℚ`, persisted
integer quantities as `ℤ`, and row ids as `ℕ` drawn from a fresh-id counter.
-/

namespace ECommerce

/-- A `Product` row: catalog entry with a price (a JavaScript number in the
source, modelled as `ℚ`). Only the fields the cart handlers read are kept. -/
structure Product where
  id : String
  price : ℚ
  deriving Repr, DecidableEq

/-- A `Cart` row: one per user, found by the unique `userId`. -/
structure CartRow where
  id : ℕ
  userId : String
  deriving Repr, DecidableEq

/-- A `CartItem` row (`CartLine` in the spec): quantity for one
(cartId, productId) pair, with its own database row id. -/
structure CartItem where
  id : ℕ
  cartId : ℕ
  productId : String
  quantity : ℤ
  deriving Repr, DecidableEq

/-- The relational store: the three tables the cart handlers touch, plus a
counter supplying fresh row ids for `create` operations. -/
structure Store where
  products : List Product
  carts : List CartRow
  items : List CartItem
  nextId : ℕ
  deriving Repr, DecidableEq

/-- The error outcomes the handlers surface (each is one `res.status(..)`
error response in the source). `StorageFailure` is the generic 500 produced
by a `catch` block. -/
inductive ApiError where
  | ProductNotFound
  | CartNotFound
  | LineNotFound
  | ValidationFailed
  | EmptyCart
  | StorageFailure
  deriving Repr, DecidableEq

/-- The success payload of the cart handlers: the cart row spread together
with its items and the recomputed total (`{...cart, total}` in the source). -/
structure CartSnapshot where
  cart : CartRow
  items : List CartItem
  total : ℚ
  deriving Repr, DecidableEq

/-- Decidable equality of handler outcomes, so concrete runs can be checked
by evaluation. -/
instance instDecEqExcept {α β : Type _} [DecidableEq α] [DecidableEq β] :
    DecidableEq (Except α β)
  | .error x, .error y =>
      if h : x = y then .isTrue (congrArg Except.error h)
      else .isFalse (fun hh => h (Except.error.inj hh))
  | .error _, .ok _ => .isFalse (fun hh => Except.noConfusion hh)
  | .ok _, .error _ => .isFalse (fun hh => Except.noConfusion hh)
  | .ok x, .ok y =>
      if h : x = y then .isTrue (congrArg Except.ok h)
      else .isFalse (fun hh => h (Except.ok.inj hh))

/-- The compound unique key `cartId_productId` used by the source in
`where: { cartId_productId: { cartId, productId } }` clauses. -/
def keyMatch (cartId : ℕ) (productId : String) (it : CartItem) : Bool :=
  it.cartId == cartId && it.productId == productId

/-- Models `prisma.cart.findUnique({ where: { userId } })`. -/
def findCart (s : Store) (userId : String) : Option CartRow :=
  s.carts.find? (fun c => c.userId == userId)

/-- Models `prisma.product.findUnique({ where: { id: productId } })`. -/
def findProduct (s : Store) (productId : String) : Option Product :=
  s.products.find? (fun p => p.id == productId)

/-- Models `prisma.cartItem.findUnique` on the compound unique key. -/
def findItem (s : Store) (cartId : ℕ) (productId : String) : Option CartItem :=
  s.items.find? (keyMatch cartId productId)

/-- All items of one cart, as the `include: { items: ... }` join returns. -/
def itemsOfCart (s : Store) (cartId : ℕ) : List CartItem :=
  s.items.filter (fun it => it.cartId == cartId)

/-- The price of the product an item references (the joined
`item.product.price`; `0` if the referencing product row is absent, which the
foreign key rules out in the store). -/
def priceOf (s : Store) (productId : String) : ℚ :=
  ((findProduct s productId).map Product.price).getD 0

/-- Models `parseFloat(x.toFixed(2))`: rounding to two decimal places. -/
def round2 (q : ℚ) : ℚ :=
  (round (q * 100) : ℤ) / 100

/-- Models the `items.reduce((sum, item) => sum + item.product.price *
item.quantity, 0)` fold followed by `parseFloat(total.toFixed(2))`. -/
def computeTotal (s : Store) (items : List CartItem) : ℚ :=
  round2 (items.foldl (fun sum it => sum + priceOf s it.productId * (it.quantity : ℚ)) 0)

/-- The raw JSON body of a POST `/api/cart` request: a `productId` string and
a `quantity` number (a JavaScript number, modelled as `ℚ`). -/
structure RawBody where
  productId : String
  quantity : ℚ
  deriving Repr, DecidableEq

/-- Models the zod cuid check used by `z.string().cuid()`: the
case-insensitive regex `^c[^\s-]{8,}$` — a leading `c`, then at least 8
characters none of which is whitespace or a hyphen. -/
def isCuid (str : String) : Bool :=
  match str.toList with
  | [] => false
  | c :: rest =>
      (c == 'c' || c == 'C') && rest.length ≥ 8 &&
        rest.all (fun ch => !(ch.isWhitespace || ch == '-'))

/-- Models `cartItemSchema.parse(req.body)`: `productId` must be cuid-shaped
and `quantity` must be an integer number. -/
def validBody (body : RawBody) : Bool :=
  isCuid body.productId && body.quantity.den == 1

/-- Models `handleGetCart` of `src/pages/api/cart/index.ts`: look up the cart
of the user with its items; an absent cart is a 404 "Cart not found";
otherwise return the cart with its recomputed total. No mutation happens, so
no store is returned. -/
def handleGetCart (s : Store) (userId : String) : Except ApiError CartSnapshot :=
  match findCart s userId with
  | none => .error .CartNotFound
  | some cart =>
      let items := itemsOfCart s cart.id
      .ok { cart := cart, items := items, total := computeTotal s items }

/-- The cart-resolution step of `handleAddToCart`: find the cart of the user,
or create one (`prisma.cart.create({ data: { userId } })`) with a fresh id. -/
def getOrCreateCart (s : Store) (userId : String) : CartRow × Store :=
  match findCart s userId with
  | some cart => (cart, s)
  | none =>
      let cart : CartRow := { id := s.nextId, userId := userId }
      (cart, { s with carts := s.carts ++ [cart], nextId := s.nextId + 1 })

/-- Models `prisma.cartItem.upsert` keyed on `cartId_productId`, with
`update: { quantity: { increment: quantity } }` and
`create: { cartId, productId, quantity }`. -/
def upsertItem (s : Store) (cartId : ℕ) (productId : String) (qty : ℤ) : Store :=
  match findItem s cartId productId with
  | some _ =>
      let upd := s.items.map (fun it =>
        if keyMatch cartId productId it then { it with quantity := it.quantity + qty }
        else it)
      { s with items := upd }
  | none =>
      let fresh : CartItem :=
        { id := s.nextId, cartId := cartId, productId := productId, quantity := qty }
      { s with items := s.items ++ [fresh], nextId := s.nextId + 1 }

/-- The delta block of `handleAddToCart` (lines 98-145 of
`src/pages/api/cart/index.ts`): no-op for a zero delta, atomic
upsert-with-increment for a positive delta; for a negative delta read the
line (absent → 400 "Cart item not found"), update it in place when the new
quantity stays positive, delete it otherwise. -/
def applyDeltaStep (s : Store) (cartId : ℕ) (productId : String) (qty : ℤ) :
    Except ApiError Unit × Store :=
  if qty = 0 then (.ok (), s)
  else if 0 < qty then (.ok (), upsertItem s cartId productId qty)
  else
    match findItem s cartId productId with
    | none => (.error .LineNotFound, s)
    | some existing =>
        let newQty := existing.quantity + qty
        if 0 < newQty then
          let upd := s.items.map (fun it =>
            if it.id == existing.id then { it with quantity := newQty } else it)
          (.ok (), { s with items := upd })
        else
          let rest := s.items.filter (fun it => it.id != existing.id)
          (.ok (), { s with items := rest })

/-- Models `handleAddToCart` of `src/pages/api/cart/index.ts`: validate the
body, check the product exists (404 otherwise), get or create the cart,
apply the signed quantity delta, then re-read the cart and return it with
the recomputed total. -/
def handleAddToCart (s : Store) (userId : String) (body : RawBody) :
    Except ApiError CartSnapshot × Store :=
  if validBody body then
    match findProduct s body.productId with
    | none => (.error .ProductNotFound, s)
    | some _ =>
        let resolved := getOrCreateCart s userId
        let cart := resolved.1
        match applyDeltaStep resolved.2 cart.id body.productId body.quantity.num with
        | (.error e, s2) => (.error e, s2)
        | (.ok _, s2) =>
            let items := itemsOfCart s2 cart.id
            (.ok { cart := cart, items := items, total := computeTotal s2 items }, s2)
  else (.error .ValidationFailed, s)

/-- Models `handleRemoveFromCart` of `src/pages/api/cart/index.ts`: require a
non-empty string `productId` (400 otherwise), 404 if the user has no cart,
then `prisma.cartItem.delete` on the compound key — when no such line exists
the delete throws and the generic `catch` returns a 500 "Failed to remove
from cart", modelled as `StorageFailure`; otherwise the line is removed and
the updated cart returned with its total. -/
def handleRemoveFromCart (s : Store) (userId : String) (productId : Option String) :
    Except ApiError CartSnapshot × Store :=
  match productId with
  | none => (.error .ValidationFailed, s)
  | some pid =>
      if pid == "" then (.error .ValidationFailed, s)
      else
        match findCart s userId with
        | none => (.error .CartNotFound, s)
        | some cart =>
            match findItem s cart.id pid with
            | none => (.error .StorageFailure, s)
            | some existing =>
                let rest := s.items.filter (fun it => it.id != existing.id)
                let s2 : Store := { s with items := rest }
                let items := itemsOfCart s2 cart.id
                (.ok { cart := cart, items := items,
                       total := computeTotal s2 items }, s2)

/-- Models the orders handler of `src/pages/api/orders/index.ts` (POST): load
the cart of the user with its items; a missing cart or an empty item list is
a 400 "Cart is empty"; otherwise compute the total, `deleteMany` all the
items of the cart, and return the total. The cart row is not touched. -/
def ordersHandler (s : Store) (userId : String) : Except ApiError ℚ × Store :=
  match findCart s userId with
  | none => (.error .EmptyCart, s)
  | some cart =>
      let items := itemsOfCart s cart.id
      if items.isEmpty then (.error .EmptyCart, s)
      else
        let total := computeTotal s items
        let rest := s.items.filter (fun it => it.cartId != cart.id)
        (.ok total, { s with items := rest })

/-- One inbound cart operation, for reasoning about operation sequences. -/
inductive Op where
  | get (userId : String)
  | post (userId : String) (body : RawBody)
  | remove (userId : String) (productId : Option String)
  | checkout (userId : String)
  deriving Repr, DecidableEq

/-- The store resulting from one operation (GET does not mutate). -/
def runOp (s : Store) : Op → Store
  | .get _ => s
  | .post userId body => (handleAddToCart s userId body).2
  | .remove userId productId => (handleRemoveFromCart s userId productId).2
  | .checkout userId => (ordersHandler s userId).2

/-- The store resulting from a sequence of operations. -/
def runOps (s : Store) (ops : List Op) : Store :=
  ops.foldl runOp s

/-- Number of CartItem rows for one (cartId, productId) pair. -/
def countPair (s : Store) (cartId : ℕ) (productId : String) : ℕ :=
  (s.items.filter (keyMatch cartId productId)).length

/-- The uniqueness invariant of the spec: at most one CartItem row per
(cart id, product id) pair, phrased as pairwise distinctness of the keys. -/
def UniqItems (l : List CartItem) : Prop :=
  l.Pairwise (fun a b => ¬ (a.cartId = b.cartId ∧ a.productId = b.productId))

/-- The uniqueness invariant on a store. -/
def Uniq (s : Store) : Prop :=
  UniqItems s.items

/-- The quantity-floor invariant of the spec: every persisted CartItem row
has quantity at least 1. -/
def PosQty (s : Store) : Prop :=
  ∀ it ∈ s.items, 1 ≤ it.quantity

end ECommerce

namespace ECommerce

/-- A concrete catalog product used to evaluate the handlers. Its id is
cuid-shaped for the zod check. -/
def sampleProduct : Product :=
  { id := "cabcdefgh", price := 10 }

/-- A store holding one product and no cart: the state of a user before any
cart operation. -/
def emptyStore : Store :=
  { products := [sampleProduct], carts := [], items := [], nextId := 1 }

/-- A store where user "u" has a cart with no lines. -/
def cartOnlyStore : Store :=
  { products := [sampleProduct], carts := [{ id := 1, userId := "u" }],
    items := [], nextId := 2 }

/-- A store where user "u" has a cart holding one line of two units of the
sample product. -/
def lineStore : Store :=
  { products := [sampleProduct], carts := [{ id := 1, userId := "u" }],
    items := [{ id := 2, cartId := 1, productId := "cabcdefgh", quantity := 2 }],
    nextId := 3 }

theorem keyMatch_iff {cartId : ℕ} {productId : String} {it : CartItem} :
    keyMatch cartId productId it = true ↔ it.cartId = cartId ∧ it.productId = productId := by
  simp [keyMatch]

theorem length_le_one_eq {α : Type _} {l : List α} (h : l.length ≤ 1)
    {a b : α} (ha : a ∈ l) (hb : b ∈ l) : a = b := by
  cases l with
  | nil => cases ha
  | cons x t =>
    cases t with
    | nil =>
      rw [List.mem_singleton] at ha hb
      exact ha.trans hb.symm
    | cons y u => simp at h

theorem countPair_le_one {s : Store} (hu : Uniq s) (cartId : ℕ) (productId : String) :
    countPair s cartId productId ≤ 1 := by
  unfold countPair
  have hpw : (s.items.filter (keyMatch cartId productId)).Pairwise
      (fun a b => ¬ (a.cartId = b.cartId ∧ a.productId = b.productId)) :=
    List.Pairwise.filter _ hu
  rcases hfl : s.items.filter (keyMatch cartId productId) with _ | ⟨a, _ | ⟨b, t⟩⟩
  · simp
  · simp
  · exfalso
    rw [hfl] at hpw
    have hR := (List.pairwise_cons.mp hpw).1 b (by simp)
    have haf : a ∈ s.items.filter (keyMatch cartId productId) := by rw [hfl]; simp
    have hbf : b ∈ s.items.filter (keyMatch cartId productId) := by rw [hfl]; simp
    have hak := keyMatch_iff.mp (List.mem_filter.mp haf).2
    have hbk := keyMatch_iff.mp (List.mem_filter.mp hbf).2
    exact hR ⟨hak.1.trans hbk.1.symm, hak.2.trans hbk.2.symm⟩

theorem key_unique {s : Store} (hu : Uniq s) {cartId : ℕ} {productId : String}
    {it a : CartItem} (hf : findItem s cartId productId = some it)
    (ha : a ∈ s.items) (hk : keyMatch cartId productId a = true) : a = it := by
  have hit : it ∈ s.items := List.mem_of_find?_eq_some hf
  have hitk : keyMatch cartId productId it = true := List.find?_some hf
  have h1 : a ∈ s.items.filter (keyMatch cartId productId) := List.mem_filter.mpr ⟨ha, hk⟩
  have h2 : it ∈ s.items.filter (keyMatch cartId productId) := List.mem_filter.mpr ⟨hit, hitk⟩
  have hlen : (s.items.filter (keyMatch cartId productId)).length ≤ 1 :=
    countPair_le_one hu cartId productId
  exact length_le_one_eq hlen h1 h2

theorem keyMatch_comp {cartId : ℕ} {productId : String} {g : CartItem → CartItem}
    (hg : ∀ it, (g it).cartId = it.cartId ∧ (g it).productId = it.productId)
    (it : CartItem) :
    keyMatch cartId productId (g it) = keyMatch cartId productId it := by
  simp [keyMatch, (hg it).1, (hg it).2]

theorem find?_key_map {l : List CartItem} {cartId : ℕ} {productId : String}
    {g : CartItem → CartItem}
    (hg : ∀ it, (g it).cartId = it.cartId ∧ (g it).productId = it.productId) :
    (l.map g).find? (keyMatch cartId productId)
      = (l.find? (keyMatch cartId productId)).map g := by
  rw [List.find?_map]
  have hpred : (keyMatch cartId productId ∘ g) = keyMatch cartId productId :=
    funext (keyMatch_comp hg)
  rw [hpred]

theorem filter_key_map {l : List CartItem} {cartId : ℕ} {productId : String}
    {g : CartItem → CartItem}
    (hg : ∀ it, (g it).cartId = it.cartId ∧ (g it).productId = it.productId) :
    (l.map g).filter (keyMatch cartId productId)
      = (l.filter (keyMatch cartId productId)).map g := by
  rw [List.filter_map]
  have hpred : (keyMatch cartId productId ∘ g) = keyMatch cartId productId :=
    funext (keyMatch_comp hg)
  rw [hpred]

theorem uniqItems_map {l : List CartItem} {g : CartItem → CartItem}
    (hg : ∀ it, (g it).cartId = it.cartId ∧ (g it).productId = it.productId)
    (h : UniqItems l) : UniqItems (l.map g) := by
  unfold UniqItems at h ⊢
  rw [List.pairwise_map]
  refine h.imp ?_
  intro a b hab
  simpa [(hg a).1, (hg a).2, (hg b).1, (hg b).2] using hab

theorem uniqItems_append_fresh {l : List CartItem} {fresh : CartItem}
    (h : UniqItems l)
    (habs : ∀ a ∈ l, ¬ (a.cartId = fresh.cartId ∧ a.productId = fresh.productId)) :
    UniqItems (l ++ [fresh]) := by
  unfold UniqItems at h ⊢
  rw [List.pairwise_append]
  refine ⟨h, by simp, ?_⟩
  intro a ha b hb
  rw [List.mem_singleton] at hb
  subst hb
  exact habs a ha

end ECommerce

namespace ECommerce

theorem uniq_upsertItem {s : Store} {cartId : ℕ} {productId : String} {qty : ℤ}
    (hu : Uniq s) : Uniq (upsertItem s cartId productId qty) := by
  unfold Uniq at hu ⊢
  unfold upsertItem
  cases hfi : findItem s cartId productId with
  | some it =>
      exact uniqItems_map
        (fun a => by cases hk : keyMatch cartId productId a <;> simp [hk]) hu
  | none =>
      apply uniqItems_append_fresh hu
      intro a ha hkey
      have hnone := List.find?_eq_none.mp hfi a ha
      exact hnone (keyMatch_iff.mpr ⟨hkey.1, hkey.2⟩)

theorem uniq_applyDeltaStep {s : Store} {cartId : ℕ} {productId : String} {qty : ℤ}
    (hu : Uniq s) : Uniq (applyDeltaStep s cartId productId qty).2 := by
  unfold applyDeltaStep
  split
  · exact hu
  · split
    · exact uniq_upsertItem hu
    · cases hfi : findItem s cartId productId with
      | none => exact hu
      | some existing =>
          simp only []
          split
          · exact uniqItems_map
              (fun a => by cases hk : (a.id == existing.id) <;> simp [hk]) hu
          · exact List.Pairwise.filter _ hu

theorem getOrCreateCart_items (s : Store) (userId : String) :
    ((getOrCreateCart s userId).2).items = s.items := by
  unfold getOrCreateCart
  cases findCart s userId <;> rfl

theorem getOrCreateCart_of_found {s : Store} {userId : String} {cart : CartRow}
    (h : findCart s userId = some cart) : getOrCreateCart s userId = (cart, s) := by
  unfold getOrCreateCart
  rw [h]

theorem handleAddToCart_snd_cases (s : Store) (userId : String) (body : RawBody) :
    (handleAddToCart s userId body).2 = s ∨
    (handleAddToCart s userId body).2 =
      (applyDeltaStep (getOrCreateCart s userId).2 (getOrCreateCart s userId).1.id
        body.productId body.quantity.num).2 := by
  unfold handleAddToCart
  split
  · rcases hfp : findProduct s body.productId with _ | p
    · left; rfl
    · dsimp only
      rcases hstep : applyDeltaStep (getOrCreateCart s userId).2
          (getOrCreateCart s userId).1.id body.productId body.quantity.num
        with ⟨fst, snd⟩
      right
      cases fst <;> rfl
  · left; rfl

theorem uniq_handleAddToCart {s : Store} {userId : String} {body : RawBody}
    (hu : Uniq s) : Uniq (handleAddToCart s userId body).2 := by
  rcases handleAddToCart_snd_cases s userId body with h | h
  · rw [h]; exact hu
  · rw [h]
    apply uniq_applyDeltaStep
    unfold Uniq
    rw [getOrCreateCart_items]
    exact hu

theorem uniq_handleRemoveFromCart {s : Store} {userId : String}
    {productId : Option String} (hu : Uniq s) :
    Uniq (handleRemoveFromCart s userId productId).2 := by
  unfold handleRemoveFromCart
  rcases productId with _ | pid
  · exact hu
  · dsimp only
    split
    · exact hu
    · rcases hfc : findCart s userId with _ | cart
      · exact hu
      · dsimp only
        rcases hfi : findItem s cart.id pid with _ | existing
        · exact hu
        · exact List.Pairwise.filter _ hu

theorem uniq_ordersHandler {s : Store} {userId : String} (hu : Uniq s) :
    Uniq (ordersHandler s userId).2 := by
  unfold ordersHandler
  rcases hfc : findCart s userId with _ | cart
  · exact hu
  · dsimp only
    split
    · exact hu
    · exact List.Pairwise.filter _ hu

theorem uniq_runOp {s : Store} {op : Op} (hu : Uniq s) : Uniq (runOp s op) := by
  cases op with
  | get userId => exact hu
  | post userId body => exact uniq_handleAddToCart hu
  | remove userId productId => exact uniq_handleRemoveFromCart hu
  | checkout userId => exact uniq_ordersHandler hu

end ECommerce

namespace ECommerce

theorem posQtyItems_filter {l : List CartItem} {p : CartItem → Bool}
    (h : ∀ it ∈ l, 1 ≤ it.quantity) : ∀ it ∈ l.filter p, 1 ≤ it.quantity := by
  intro it hit
  exact h it (List.mem_filter.mp hit).1

theorem posQty_upsertItem {s : Store} {cartId : ℕ} {productId : String} {qty : ℤ}
    (h : PosQty s) (hq : 1 ≤ qty) : PosQty (upsertItem s cartId productId qty) := by
  unfold PosQty at h ⊢
  unfold upsertItem
  cases hfi : findItem s cartId productId with
  | some it =>
      intro a ha
      obtain ⟨b, hb, rfl⟩ := List.mem_map.mp ha
      have hbq := h b hb
      cases hk : keyMatch cartId productId b <;> simp [hk] <;> omega
  | none =>
      intro a ha
      rcases List.mem_append.mp ha with hmem | hmem
      · exact h a hmem
      · rw [List.mem_singleton] at hmem
        subst hmem
        exact hq

theorem posQty_applyDeltaStep {s : Store} {cartId : ℕ} {productId : String} {qty : ℤ}
    (h : PosQty s) : PosQty (applyDeltaStep s cartId productId qty).2 := by
  unfold applyDeltaStep
  split
  · exact h
  · split
    · exact posQty_upsertItem h (by omega)
    · rcases hfi : findItem s cartId productId with _ | existing
      · exact h
      · dsimp only
        split
        · intro a ha
          obtain ⟨b, hb, rfl⟩ := List.mem_map.mp ha
          have hbq := h b hb
          cases hk : (b.id == existing.id) <;> simp [hk] <;> omega
        · exact posQtyItems_filter h

theorem posQty_handleAddToCart {s : Store} {userId : String} {body : RawBody}
    (h : PosQty s) : PosQty (handleAddToCart s userId body).2 := by
  rcases handleAddToCart_snd_cases s userId body with heq | heq
  · rw [heq]; exact h
  · rw [heq]
    apply posQty_applyDeltaStep
    unfold PosQty
    rw [getOrCreateCart_items]
    exact h

theorem posQty_handleRemoveFromCart {s : Store} {userId : String}
    {productId : Option String} (h : PosQty s) :
    PosQty (handleRemoveFromCart s userId productId).2 := by
  unfold handleRemoveFromCart
  rcases productId with _ | pid
  · exact h
  · dsimp only
    split
    · exact h
    · rcases hfc : findCart s userId with _ | cart
      · exact h
      · dsimp only
        rcases hfi : findItem s cart.id pid with _ | existing
        · exact h
        · exact posQtyItems_filter h

theorem posQty_ordersHandler {s : Store} {userId : String} (h : PosQty s) :
    PosQty (ordersHandler s userId).2 := by
  unfold ordersHandler
  rcases hfc : findCart s userId with _ | cart
  · exact h
  · dsimp only
    split
    · exact h
    · exact posQtyItems_filter h

theorem posQty_runOp {s : Store} {op : Op} (h : PosQty s) : PosQty (runOp s op) := by
  cases op with
  | get userId => exact h
  | post userId body => exact posQty_handleAddToCart h
  | remove userId productId => exact posQty_handleRemoveFromCart h
  | checkout userId => exact posQty_ordersHandler h

theorem runOps_cons (s : Store) (op : Op) (ops : List Op) :
    runOps s (op :: ops) = runOps (runOp s op) ops := rfl

end ECommerce

namespace ECommerce

/-- C3: for every sequence of get, applyDelta (POST), remove (DELETE) and
checkout operations starting from a store with no duplicate lines, at most
one CartItem row exists per (cart id, product id) pair at every point. -/
theorem uniqueness_invariant (ops : List Op) (s : Store) (hu : Uniq s) :
    Uniq (runOps s ops) := by
  induction ops generalizing s with
  | nil => exact hu
  | cons op rest ih =>
      rw [runOps_cons]
      exact ih _ (uniq_runOp hu)

/-- Witness for C3: running a concrete add, add, remove, checkout sequence
from the concrete initial store keeps the uniqueness invariant. -/
theorem uniqueness_invariant_witness :
    Uniq (runOps emptyStore
      [Op.post "u" ⟨"cabcdefgh", 2⟩, Op.post "u" ⟨"cabcdefgh", 1⟩,
       Op.remove "u" (some "cabcdefgh"), Op.checkout "u"]) :=
  uniqueness_invariant _ emptyStore (by unfold Uniq UniqItems; decide)

/-- C4: for every sequence of cart operations starting from a state where
every persisted CartItem has quantity at least 1, every persisted CartItem
keeps quantity at least 1: an operation that would drive a quantity to 0 or
below deletes the row instead. -/
theorem quantity_floor_invariant (ops : List Op) (s : Store) (h : PosQty s) :
    PosQty (runOps s ops) := by
  induction ops generalizing s with
  | nil => exact h
  | cons op rest ih =>
      rw [runOps_cons]
      exact ih _ (posQty_runOp h)

/-- Witness for C4: a concrete sequence including a quantity-exhausting
negative delta keeps all persisted quantities at least 1. -/
theorem quantity_floor_invariant_witness :
    PosQty (runOps lineStore
      [Op.post "u" ⟨"cabcdefgh", 1⟩, Op.post "u" ⟨"cabcdefgh", -5⟩,
       Op.get "u", Op.checkout "u"]) :=
  quantity_floor_invariant _ lineStore (by unfold PosQty; decide)

/-- C10: a POST body that fails the zod schema (productId not cuid-shaped or
quantity not an integer) is rejected with a validation error and the store
is left completely unchanged: no product lookup, cart creation, or line
mutation happens. -/
theorem validation_rejects (s : Store) (userId : String) (body : RawBody)
    (h : validBody body = false) :
    handleAddToCart s userId body = (.error .ValidationFailed, s) := by
  unfold handleAddToCart
  rw [h]
  simp

/-- Witness for C10: a body whose productId is not cuid-shaped is rejected
and the concrete store is unchanged. -/
theorem validation_rejects_witness :
    handleAddToCart emptyStore "u" ⟨"abc", 1⟩ = (.error .ValidationFailed, emptyStore) :=
  validation_rejects emptyStore "u" ⟨"abc", 1⟩ (by decide)

/-- C8 counterexample: for a user with no Cart row, get-cart fails with the
cart-not-found outcome instead of creating a cart — the claim that get-cart
never fails with cart-not-found is false on the code. -/
theorem getCart_cartNotFound_counterexample :
    handleGetCart emptyStore "u" = .error .CartNotFound := by
  rfl

/-- C8 (amended): get-cart fails with CartNotFound exactly when the user has
no Cart row; absence does not trigger creation (only the POST path creates a
cart). -/
theorem getCart_error_iff (s : Store) (userId : String) :
    handleGetCart s userId = .error .CartNotFound ↔ findCart s userId = none := by
  unfold handleGetCart
  rcases hfc : findCart s userId with _ | cart
  · simp
  · simp

end ECommerce

namespace ECommerce

theorem applyDeltaStep_error {s : Store} {cartId : ℕ} {productId : String}
    {qty : ℤ} {e : ApiError} {s2 : Store}
    (h : applyDeltaStep s cartId productId qty = (.error e, s2)) :
    e = .LineNotFound ∧ s2 = s := by
  unfold applyDeltaStep at h
  split at h
  · simp [Prod.ext_iff] at h
  · split at h
    · simp [Prod.ext_iff] at h
    · split at h
      · simp only [Prod.ext_iff] at h
        obtain ⟨he, hs⟩ := h
        obtain rfl : ApiError.LineNotFound = e := by
          cases he
          rfl
        exact ⟨rfl, hs.symm⟩
      · dsimp only at h
        split at h
        · simp [Prod.ext_iff] at h
        · simp [Prod.ext_iff] at h

/-- C9 counterexample: a negative delta for a user with no Cart row fails
with LineNotFound but leaves a newly created Cart row behind, so the store
after the failed call differs from the store before it. -/
theorem applyDelta_failure_mutation_counterexample :
    (handleAddToCart emptyStore "u" ⟨"cabcdefgh", -1⟩).1 = .error .LineNotFound ∧
    (handleAddToCart emptyStore "u" ⟨"cabcdefgh", -1⟩).2 ≠ emptyStore := by
  decide

/-- C9 (amended): a failed applyDelta call leaves every CartItem row
unchanged (the prior line state is intact); a ValidationFailed or
ProductNotFound failure leaves the entire store unchanged, and so does any
failure for a user who already had a Cart row — but a LineNotFound failure
for a user with no Cart row leaves behind the newly created empty Cart
row. -/
theorem applyDelta_failure_spec (s : Store) (userId : String) (body : RawBody)
    (e : ApiError) (s2 : Store)
    (h : handleAddToCart s userId body = (.error e, s2)) :
    s2.items = s.items ∧
    ((e = .ValidationFailed ∨ e = .ProductNotFound) → s2 = s) ∧
    (∀ cart, findCart s userId = some cart → s2 = s) := by
  unfold handleAddToCart at h
  split at h
  · rcases hfp : findProduct s body.productId with _ | p
    · rw [hfp] at h
      dsimp only at h
      simp only [Prod.ext_iff] at h
      obtain ⟨he, hs⟩ := h
      subst hs
      exact ⟨rfl, fun _ => rfl, fun _ _ => rfl⟩
    · rw [hfp] at h
      dsimp only at h
      rcases hstep : applyDeltaStep (getOrCreateCart s userId).2
          (getOrCreateCart s userId).1.id body.productId body.quantity.num
        with ⟨fst, s3⟩
      rw [hstep] at h
      cases fst with
      | ok u => simp [Prod.ext_iff] at h
      | error e2 =>
          dsimp only at h
          simp only [Prod.ext_iff] at h
          obtain ⟨he, hs⟩ := h
          obtain ⟨h2, h3⟩ := applyDeltaStep_error hstep
          obtain rfl : e2 = e := by
            cases he
            rfl
          subst h2
          subst hs
          subst h3
          refine ⟨getOrCreateCart_items s userId, ?_, ?_⟩
          · rintro (hbad | hbad) <;> cases hbad
          · intro cart hc
            rw [getOrCreateCart_of_found hc]
  · simp only [Prod.ext_iff] at h
    obtain ⟨he, hs⟩ := h
    subst hs
    exact ⟨rfl, fun _ => rfl, fun _ _ => rfl⟩

/-- Witness for C9 (amended): instantiated at the concrete failing negative
delta, the CartItem table is unchanged. -/
theorem applyDelta_failure_spec_witness :
    ((handleAddToCart emptyStore "u" ⟨"cabcdefgh", -1⟩).2).items = emptyStore.items ∧
    (((ApiError.LineNotFound = .ValidationFailed ∨ ApiError.LineNotFound = .ProductNotFound)) →
       (handleAddToCart emptyStore "u" ⟨"cabcdefgh", -1⟩).2 = emptyStore) ∧
    (∀ cart, findCart emptyStore "u" = some cart →
       (handleAddToCart emptyStore "u" ⟨"cabcdefgh", -1⟩).2 = emptyStore) :=
  applyDelta_failure_spec emptyStore "u" ⟨"cabcdefgh", -1⟩ .LineNotFound
    (handleAddToCart emptyStore "u" ⟨"cabcdefgh", -1⟩).2 (by decide)

end ECommerce

namespace ECommerce

theorem countPair_erase_id {s : Store} {cartId : ℕ} {productId : String}
    {it : CartItem} (hu : Uniq s) (hf : findItem s cartId productId = some it) :
    ((s.items.filter (fun a => a.id != it.id)).filter
        (keyMatch cartId productId)).length = 0 := by
  rw [List.filter_filter, List.length_eq_zero]
  rw [List.filter_eq_nil_iff]
  intro a ha hpred
  rw [Bool.and_eq_true] at hpred
  obtain ⟨hk, hid⟩ := hpred
  have ha_eq : a = it := key_unique hu hf ha hk
  subst ha_eq
  simp at hid

/-- C7 counterexample: removing a product with no existing line surfaces as
the generic 500 storage failure produced by the catch block, not as a
distinct LineNotFound client error — the claim that absence is reported as
LineNotFound is false on the code. -/
theorem remove_absent_counterexample :
    handleRemoveFromCart cartOnlyStore "u" (some "cabcdefgh")
      = (.error .StorageFailure, cartOnlyStore) ∧
    ApiError.StorageFailure ≠ ApiError.LineNotFound := by
  exact ⟨rfl, by decide⟩

/-- C7 (amended): remove deletes the line when it is present (no line for
the pair remains and the handler succeeds); when no line exists the delete
throws inside the handler and the generic catch reports a 500 storage
failure with the store unchanged — absence is NOT reported as LineNotFound. -/
theorem remove_spec (s : Store) (userId : String) (pid : String) (cart : CartRow)
    (hpid : (pid == "") = false) (hc : findCart s userId = some cart)
    (hu : Uniq s) :
    (findItem s cart.id pid = none →
       handleRemoveFromCart s userId (some pid) = (.error .StorageFailure, s)) ∧
    (∀ it, findItem s cart.id pid = some it →
       (∃ snap, (handleRemoveFromCart s userId (some pid)).1 = .ok snap) ∧
       countPair (handleRemoveFromCart s userId (some pid)).2 cart.id pid = 0) := by
  have hbase : handleRemoveFromCart s userId (some pid)
      = (if pid == "" then (.error .ValidationFailed, s)
         else match findCart s userId with
           | none => (.error .CartNotFound, s)
           | some cart =>
               match findItem s cart.id pid with
               | none => (.error .StorageFailure, s)
               | some existing =>
                   let rest := s.items.filter (fun it => it.id != existing.id)
                   let s2 : Store := { s with items := rest }
                   let items := itemsOfCart s2 cart.id
                   (.ok { cart := cart, items := items,
                          total := computeTotal s2 items }, s2)) := rfl
  constructor
  · intro hfi
    rw [hbase, hpid, hc]
    simp only [Bool.false_eq_true, if_false]
    rw [hfi]
  · intro it hfi
    have heval : handleRemoveFromCart s userId (some pid)
        = (.ok { cart := cart,
                 items := itemsOfCart { s with items := s.items.filter (fun a => a.id != it.id) } cart.id,
                 total := computeTotal { s with items := s.items.filter (fun a => a.id != it.id) }
                   (itemsOfCart { s with items := s.items.filter (fun a => a.id != it.id) } cart.id) },
           { s with items := s.items.filter (fun a => a.id != it.id) }) := by
      rw [hbase, hpid, hc]
      simp only [Bool.false_eq_true, if_false]
      rw [hfi]
    rw [heval]
    refine ⟨⟨_, rfl⟩, ?_⟩
    exact countPair_erase_id hu hfi

/-- Witness for C7 (amended): at a concrete store with one line, remove on
the present product succeeds and leaves no line for the pair. -/
theorem remove_spec_witness :
    (findItem lineStore 1 "cabcdefgh" = none →
       handleRemoveFromCart lineStore "u" (some "cabcdefgh")
         = (.error .StorageFailure, lineStore)) ∧
    (∀ it, findItem lineStore 1 "cabcdefgh" = some it →
       (∃ snap, (handleRemoveFromCart lineStore "u" (some "cabcdefgh")).1 = .ok snap) ∧
       countPair (handleRemoveFromCart lineStore "u" (some "cabcdefgh")).2 1 "cabcdefgh" = 0) :=
  remove_spec lineStore "u" "cabcdefgh" { id := 1, userId := "u" } (by decide) (by decide)
    (by unfold Uniq UniqItems; decide)

end ECommerce

namespace ECommerce

theorem computeTotal_nil (s : Store) : computeTotal s [] = 0 := by
  simp [computeTotal, round2]

theorem foldl_add_sum (f : CartItem → ℚ) (l : List CartItem) (a : ℚ) :
    l.foldl (fun acc it => acc + f it) a = a + (l.map f).sum := by
  induction l generalizing a with
  | nil => simp
  | cons x t ih => simp [List.foldl_cons, ih, add_assoc]

theorem round2_nonneg {q : ℚ} (h : 0 ≤ q) : 0 ≤ round2 q := by
  unfold round2
  apply div_nonneg _ (by norm_num)
  have hr : (0 : ℤ) ≤ round (q * 100) := by
    rw [round_eq]
    apply Int.floor_nonneg.mpr
    nlinarith
  exact_mod_cast hr

theorem priceOf_nonneg {s : Store} (hp : ∀ p ∈ s.products, (0:ℚ) ≤ p.price)
    (pid : String) : 0 ≤ priceOf s pid := by
  unfold priceOf
  rcases hfp : findProduct s pid with _ | p
  · simp
  · simpa using hp p (List.mem_of_find?_eq_some hfp)

/-- C6: the total computed by the handlers equals the sum over all lines of product price
times quantity rounded to two decimals; the empty line set totals 0.00; and
with non-negative prices and quantities the total is never negative. -/
theorem total_correct (s : Store) (lines : List CartItem) :
    computeTotal s lines
      = round2 ((lines.map (fun it => priceOf s it.productId * (it.quantity : ℚ))).sum) ∧
    computeTotal s [] = 0 ∧
    ((∀ p ∈ s.products, (0:ℚ) ≤ p.price) → (∀ it ∈ lines, (0:ℤ) ≤ it.quantity) →
       0 ≤ computeTotal s lines) := by
  have hfold : computeTotal s lines
      = round2 ((lines.map (fun it => priceOf s it.productId * (it.quantity : ℚ))).sum) := by
    unfold computeTotal
    rw [foldl_add_sum, zero_add]
  refine ⟨hfold, computeTotal_nil s, ?_⟩
  intro hp hq
  rw [hfold]
  apply round2_nonneg
  apply List.sum_nonneg
  intro x hx
  obtain ⟨it, hit, rfl⟩ := List.mem_map.mp hx
  have h1 := priceOf_nonneg hp it.productId
  have h2 : (0:ℚ) ≤ (it.quantity : ℚ) := by exact_mod_cast hq it hit
  exact mul_nonneg h1 h2

/-- Witness for C6: instantiated at the concrete one-line store. -/
theorem total_correct_witness :
    computeTotal lineStore lineStore.items
      = round2 ((lineStore.items.map
          (fun it => priceOf lineStore it.productId * (it.quantity : ℚ))).sum) ∧
    computeTotal lineStore [] = 0 ∧
    ((∀ p ∈ lineStore.products, (0:ℚ) ≤ p.price) →
     (∀ it ∈ lineStore.items, (0:ℤ) ≤ it.quantity) →
       0 ≤ computeTotal lineStore lineStore.items) :=
  total_correct lineStore lineStore.items

/-- C5: checkout on a cart with no lines fails with EmptyCart and changes
nothing; checkout on a cart with at least one line returns the total over
the lines present at that moment, deletes all of the lines of that cart (a
subsequent get shows zero lines), and leaves the Cart row in place. -/
theorem checkout_spec (s : Store) (userId : String) (cart : CartRow)
    (hc : findCart s userId = some cart) :
    (itemsOfCart s cart.id = [] → ordersHandler s userId = (.error .EmptyCart, s)) ∧
    (itemsOfCart s cart.id ≠ [] →
       (ordersHandler s userId).1 = .ok (computeTotal s (itemsOfCart s cart.id)) ∧
       itemsOfCart (ordersHandler s userId).2 cart.id = [] ∧
       (ordersHandler s userId).2.carts = s.carts ∧
       handleGetCart (ordersHandler s userId).2 userId
         = .ok { cart := cart, items := [], total := 0 }) := by
  have hbase : ordersHandler s userId
      = (let items := itemsOfCart s cart.id
         if items.isEmpty then (.error .EmptyCart, s)
         else
           let total := computeTotal s items
           let rest := s.items.filter (fun it => it.cartId != cart.id)
           (.ok total, { s with items := rest })) := by
    unfold ordersHandler
    rw [hc]
  constructor
  · intro he
    rw [hbase]
    dsimp only
    rw [he]
    rfl
  · intro hne
    have hie : (itemsOfCart s cart.id).isEmpty = false := by
      rw [List.isEmpty_eq_false]
      exact hne
    have hord : ordersHandler s userId
        = (.ok (computeTotal s (itemsOfCart s cart.id)),
           { s with items := s.items.filter (fun it => it.cartId != cart.id) }) := by
      rw [hbase]
      simp only [hie, Bool.false_eq_true, if_false]
    have hcleared : itemsOfCart
        { s with items := s.items.filter (fun it => it.cartId != cart.id) } cart.id = [] := by
      unfold itemsOfCart
      rw [List.filter_filter, List.filter_eq_nil_iff]
      intro a _ hpred
      rw [Bool.and_eq_true] at hpred
      obtain ⟨h1, h2⟩ := hpred
      rw [beq_iff_eq] at h1
      rw [bne_iff_ne] at h2
      exact h2 h1
    rw [hord]
    refine ⟨rfl, hcleared, rfl, ?_⟩
    have hfc2 : findCart
        { s with items := s.items.filter (fun it => it.cartId != cart.id) } userId
          = some cart := hc
    unfold handleGetCart
    rw [hfc2]
    dsimp only
    rw [hcleared, computeTotal_nil]

/-- Witness for C5: instantiated at the concrete one-line store, where the
cart of user "u" is non-empty. -/
theorem checkout_spec_witness :
    (itemsOfCart lineStore 1 = [] →
       ordersHandler lineStore "u" = (.error .EmptyCart, lineStore)) ∧
    (itemsOfCart lineStore 1 ≠ [] →
       (ordersHandler lineStore "u").1 = .ok (computeTotal lineStore (itemsOfCart lineStore 1)) ∧
       itemsOfCart (ordersHandler lineStore "u").2 1 = [] ∧
       (ordersHandler lineStore "u").2.carts = lineStore.carts ∧
       handleGetCart (ordersHandler lineStore "u").2 "u"
         = .ok { cart := { id := 1, userId := "u" }, items := [], total := 0 }) :=
  checkout_spec lineStore "u" { id := 1, userId := "u" } (by decide)

end ECommerce

namespace ECommerce

theorem upsert_comp_key {cartId : ℕ} {productId : String} {qty : ℤ} :
    (keyMatch cartId productId ∘ (fun it =>
        if keyMatch cartId productId it
        then { it with quantity := it.quantity + qty } else it))
      = keyMatch cartId productId := by
  funext a
  cases hk : keyMatch cartId productId a with
  | false => simp [Function.comp, hk]
  | true =>
      simp only [Function.comp, hk, if_true]
      simp [keyMatch] at hk ⊢
      exact hk

theorem update_comp_key {cartId : ℕ} {productId : String} {idv : ℕ} {q : ℤ} :
    (keyMatch cartId productId ∘ (fun it =>
        if it.id == idv then { it with quantity := q } else it))
      = keyMatch cartId productId := by
  funext a
  cases hk : (a.id == idv) with
  | false => simp [Function.comp, hk]
  | true => simp [Function.comp, hk, keyMatch]

theorem findItem_upsert_present {s : Store} {cartId : ℕ} {productId : String}
    {qty : ℤ} {it0 : CartItem} (hfi : findItem s cartId productId = some it0) :
    findItem (upsertItem s cartId productId qty) cartId productId
      = some { it0 with quantity := it0.quantity + qty } := by
  have hkey0 : keyMatch cartId productId it0 = true := List.find?_some hfi
  unfold upsertItem
  rw [hfi]
  dsimp only
  unfold findItem at hfi ⊢
  dsimp only
  rw [List.find?_map, upsert_comp_key, hfi]
  simp [hkey0]

theorem countPair_upsert_present {s : Store} {cartId : ℕ} {productId : String}
    {qty : ℤ} {it0 : CartItem} (hfi : findItem s cartId productId = some it0) :
    countPair (upsertItem s cartId productId qty) cartId productId
      = countPair s cartId productId := by
  unfold upsertItem
  rw [hfi]
  dsimp only
  unfold countPair
  dsimp only
  rw [List.filter_map, upsert_comp_key, List.length_map]

theorem findItem_upsert_absent {s : Store} {cartId : ℕ} {productId : String}
    {qty : ℤ} (hfi : findItem s cartId productId = none) :
    findItem (upsertItem s cartId productId qty) cartId productId
      = some { id := s.nextId, cartId := cartId, productId := productId,
               quantity := qty } := by
  unfold upsertItem
  rw [hfi]
  dsimp only
  unfold findItem at hfi ⊢
  dsimp only
  rw [List.find?_append, hfi]
  rw [List.find?_cons_of_pos _ (by simp [keyMatch])]
  rfl

theorem countPair_upsert_absent {s : Store} {cartId : ℕ} {productId : String}
    {qty : ℤ} (hfi : findItem s cartId productId = none) :
    countPair (upsertItem s cartId productId qty) cartId productId = 1 := by
  unfold upsertItem
  rw [hfi]
  dsimp only
  unfold countPair
  dsimp only
  rw [List.filter_append]
  rw [List.filter_eq_nil_iff.mpr (List.find?_eq_none.mp hfi)]
  simp [keyMatch]

theorem findItem_update_id {s : Store} {cartId : ℕ} {productId : String}
    {q : ℤ} {it0 : CartItem} (hfi : findItem s cartId productId = some it0) :
    (s.items.map (fun it =>
        if it.id == it0.id then { it with quantity := q } else it)).find?
      (keyMatch cartId productId) = some { it0 with quantity := q } := by
  unfold findItem at hfi
  rw [List.find?_map, update_comp_key, hfi]
  simp

end ECommerce

namespace ECommerce

theorem addToCart_snd_of_found {s : Store} {userId : String} {body : RawBody}
    {p : Product} {cart : CartRow} (hv : validBody body = true)
    (hp : findProduct s body.productId = some p)
    (hc : findCart s userId = some cart) :
    (handleAddToCart s userId body).2
      = (applyDeltaStep s cart.id body.productId body.quantity.num).2 := by
  unfold handleAddToCart
  rw [hv]
  rw [if_pos rfl, hp]
  dsimp only
  rw [getOrCreateCart_of_found hc]
  dsimp only
  rcases hstep : applyDeltaStep s cart.id body.productId body.quantity.num
    with ⟨fst, s2⟩
  cases fst <;> rfl

/-- C1: a positive integer delta on an existing cart and product creates the
line with quantity equal to the delta when no line exists for the
(cartId, productId) pair, adds the delta to the existing quantity when a
line exists, and in both cases exactly one line for the pair remains. -/
theorem applyDelta_positive_spec (s : Store) (userId : String) (body : RawBody)
    (cart : CartRow) (hv : validBody body = true) (hq0 : 0 < body.quantity.num)
    (hp : (findProduct s body.productId).isSome = true)
    (hc : findCart s userId = some cart) (hu : Uniq s) :
    (findItem s cart.id body.productId = none →
       (findItem (handleAddToCart s userId body).2 cart.id body.productId).map
         CartItem.quantity = some body.quantity.num) ∧
    (∀ it, findItem s cart.id body.productId = some it →
       (findItem (handleAddToCart s userId body).2 cart.id body.productId).map
         CartItem.quantity = some (it.quantity + body.quantity.num)) ∧
    countPair (handleAddToCart s userId body).2 cart.id body.productId = 1 := by
  obtain ⟨p, hp'⟩ := Option.isSome_iff_exists.mp hp
  have hstep : applyDeltaStep s cart.id body.productId body.quantity.num
      = (.ok (), upsertItem s cart.id body.productId body.quantity.num) := by
    unfold applyDeltaStep
    rw [if_neg (by omega), if_pos hq0]
  have hsnd : (handleAddToCart s userId body).2
      = upsertItem s cart.id body.productId body.quantity.num := by
    rw [addToCart_snd_of_found hv hp' hc, hstep]
  rw [hsnd]
  rcases hfi : findItem s cart.id body.productId with _ | it0
  · refine ⟨fun _ => ?_, fun it hit => ?_, ?_⟩
    · rw [findItem_upsert_absent hfi]
      rfl
    · cases hit
    · exact countPair_upsert_absent hfi
  · refine ⟨fun habs => ?_, fun it hit => ?_, ?_⟩
    · cases habs
    · obtain rfl : it0 = it := Option.some.inj hit
      rw [findItem_upsert_present hfi]
      rfl
    · rw [countPair_upsert_present hfi]
      have hkey0 : keyMatch cart.id body.productId it0 = true := List.find?_some hfi
      have hle := countPair_le_one hu cart.id body.productId
      have hge : 0 < (s.items.filter (keyMatch cart.id body.productId)).length := by
        apply List.length_pos.mpr
        exact List.ne_nil_of_mem
          (List.mem_filter.mpr ⟨List.mem_of_find?_eq_some hfi, hkey0⟩)
      unfold countPair at hle ⊢
      omega

end ECommerce

namespace ECommerce

/-- C2: a negative integer delta on an existing cart and product fails with
LineNotFound when no line exists for the pair (leaving the store unchanged),
updates the line to existing quantity plus delta when that stays positive,
and deletes the line entirely when it would drop to 0 or below, so a
non-positive quantity is never persisted. -/
theorem applyDelta_negative_spec (s : Store) (userId : String) (body : RawBody)
    (cart : CartRow) (hv : validBody body = true) (hqn : body.quantity.num < 0)
    (hp : (findProduct s body.productId).isSome = true)
    (hc : findCart s userId = some cart) (hu : Uniq s) :
    (findItem s cart.id body.productId = none →
       handleAddToCart s userId body = (.error .LineNotFound, s)) ∧
    (∀ it, findItem s cart.id body.productId = some it →
       (0 < it.quantity + body.quantity.num →
          (findItem (handleAddToCart s userId body).2 cart.id body.productId).map
            CartItem.quantity = some (it.quantity + body.quantity.num)) ∧
       (it.quantity + body.quantity.num ≤ 0 →
          countPair (handleAddToCart s userId body).2 cart.id body.productId = 0)) := by
  obtain ⟨p, hp'⟩ := Option.isSome_iff_exists.mp hp
  constructor
  · intro hfi
    have hstep : applyDeltaStep s cart.id body.productId body.quantity.num
        = (.error .LineNotFound, s) := by
      unfold applyDeltaStep
      rw [if_neg (by omega), if_neg (by omega), hfi]
    unfold handleAddToCart
    rw [hv, if_pos rfl, hp']
    dsimp only
    rw [getOrCreateCart_of_found hc]
    dsimp only
    rw [hstep]
  · intro it hfi
    constructor
    · intro hpos
      have hstep : applyDeltaStep s cart.id body.productId body.quantity.num
          = (.ok (), { s with items := s.items.map (fun a =>
              if a.id == it.id
              then { a with quantity := it.quantity + body.quantity.num }
              else a) }) := by
        unfold applyDeltaStep
        rw [if_neg (by omega), if_neg (by omega), hfi]
        dsimp only
        rw [if_pos hpos]
      rw [addToCart_snd_of_found hv hp' hc, hstep]
      unfold findItem
      dsimp only
      rw [findItem_update_id hfi]
      rfl
    · intro hle
      have hstep : applyDeltaStep s cart.id body.productId body.quantity.num
          = (.ok (), { s with items := s.items.filter (fun a => a.id != it.id) }) := by
        unfold applyDeltaStep
        rw [if_neg (by omega), if_neg (by omega), hfi]
        dsimp only
        rw [if_neg (by omega)]
      rw [addToCart_snd_of_found hv hp' hc, hstep]
      unfold countPair
      dsimp only
      exact countPair_erase_id hu hfi

end ECommerce

namespace ECommerce

/-- Witness for C1: adding delta 3 to the existing 2-unit line of the
concrete store leaves exactly one line for the pair. -/
theorem applyDelta_positive_spec_witness :
    (findItem lineStore 1 "cabcdefgh" = none →
       (findItem (handleAddToCart lineStore "u" ⟨"cabcdefgh", 3⟩).2 1 "cabcdefgh").map
         CartItem.quantity = some (⟨"cabcdefgh", 3⟩ : RawBody).quantity.num) ∧
    (∀ it, findItem lineStore 1 "cabcdefgh" = some it →
       (findItem (handleAddToCart lineStore "u" ⟨"cabcdefgh", 3⟩).2 1 "cabcdefgh").map
         CartItem.quantity = some (it.quantity + (⟨"cabcdefgh", 3⟩ : RawBody).quantity.num)) ∧
    countPair (handleAddToCart lineStore "u" ⟨"cabcdefgh", 3⟩).2 1 "cabcdefgh" = 1 :=
  applyDelta_positive_spec lineStore "u" ⟨"cabcdefgh", 3⟩ { id := 1, userId := "u" }
    (by decide) (by decide) (by decide) (by decide) (by unfold Uniq UniqItems; decide)

/-- Witness for C2: applying delta -5 to the 2-unit line of the concrete
store exercises the negative-delta contract (deletion branch). -/
theorem applyDelta_negative_spec_witness :
    (findItem lineStore 1 "cabcdefgh" = none →
       handleAddToCart lineStore "u" ⟨"cabcdefgh", -5⟩
         = (.error .LineNotFound, lineStore)) ∧
    (∀ it, findItem lineStore 1 "cabcdefgh" = some it →
       (0 < it.quantity + (⟨"cabcdefgh", -5⟩ : RawBody).quantity.num →
          (findItem (handleAddToCart lineStore "u" ⟨"cabcdefgh", -5⟩).2 1 "cabcdefgh").map
            CartItem.quantity = some (it.quantity + (⟨"cabcdefgh", -5⟩ : RawBody).quantity.num)) ∧
       (it.quantity + (⟨"cabcdefgh", -5⟩ : RawBody).quantity.num ≤ 0 →
          countPair (handleAddToCart lineStore "u" ⟨"cabcdefgh", -5⟩).2 1 "cabcdefgh" = 0)) :=
  applyDelta_negative_spec lineStore "u" ⟨"cabcdefgh", -5⟩ { id := 1, userId := "u" }
    (by decide) (by decide) (by decide) (by decide) (by unfold Uniq UniqItems; decide)

end ECommerce
